import Mathlib

/-!
Verification of the LawChain AI backend (`main.py` / `app.py`).

The repository is a FastAPI + Oracle CRUD backend.  Each endpoint issues
parameterized SQL against three tables (`cases`, `documents`, `hearings`)
in a connect / execute / commit-or-rollback / close pattern.  This file
gives a shallow embedding of that behaviour:

* the database is a `DBState` record holding the three tables as lists of
  rows plus the identity-column counters;
* each SQL statement that can fail (inserts that hit the `UNIQUE` hash
  constraint or a foreign key, a parent-row delete with live children)
  is an `Except String DBState` step, mirroring the Oracle errors;
* each endpoint wraps its statements in the same try/commit/rollback
  boundary the Python code uses: on success the new state is committed,
  on a statement error the original state is returned (rollback) together
  with an HTTP-style 500 error carrying the driver message;
* `hashlib.sha256(content).hexdigest()` from the upload endpoint is
  embedded as an executable SHA-256 over byte lists.
-/

/-! ## SHA-256 (embedding of `hashlib.sha256(content).hexdigest()`) -/

/-- Modulus for 32-bit words. -/
def M32 : Nat := 4294967296

/-- Rotate a 32-bit word right by `n` bits (valid for words `< 2^32`). -/
def rotr (n w : Nat) : Nat := w / 2 ^ n + (w % 2 ^ n) * 2 ^ (32 - n)

/-- Logical right shift. -/
def shr (n w : Nat) : Nat := w / 2 ^ n

/-- SHA-256 choice function `(x ∧ y) ⊕ (¬x ∧ z)` on 32-bit words. -/
def ch (x y z : Nat) : Nat :=
  Nat.xor (Nat.land x y) (Nat.land (Nat.xor x (M32 - 1)) z)

/-- SHA-256 majority function. -/
def maj (x y z : Nat) : Nat :=
  Nat.xor (Nat.land x y) (Nat.xor (Nat.land x z) (Nat.land y z))

/-- Big sigma-0. -/
def bsig0 (x : Nat) : Nat := Nat.xor (rotr 2 x) (Nat.xor (rotr 13 x) (rotr 22 x))

/-- Big sigma-1. -/
def bsig1 (x : Nat) : Nat := Nat.xor (rotr 6 x) (Nat.xor (rotr 11 x) (rotr 25 x))

/-- Small sigma-0. -/
def ssig0 (x : Nat) : Nat := Nat.xor (rotr 7 x) (Nat.xor (rotr 18 x) (shr 3 x))

/-- Small sigma-1. -/
def ssig1 (x : Nat) : Nat := Nat.xor (rotr 17 x) (Nat.xor (rotr 19 x) (shr 10 x))

/-- The 64 SHA-256 round constants (FIPS 180-4, written in decimal). -/
def K256 : List Nat :=
  [1116352408, 1899447441, 3049323471, 3921009573, 961987163, 1508970993,
   2453635748, 2870763221, 3624381080, 310598401, 607225278, 1426881987,
   1925078388, 2162078206, 2614888103, 3248222580, 3835390401, 4022224774,
   264347078, 604807628, 770255983, 1249150122, 1555081692, 1996064986,
   2554220882, 2821834349, 2952996808, 3210313671, 3336571891, 3584528711,
   113926993, 338241895, 666307205, 773529912, 1294757372, 1396182291,
   1695183700, 1986661051, 2177026350, 2456956037, 2730485921, 2820302411,
   3259730800, 3345764771, 3516065817, 3600352804, 4094571909, 275423344,
   430227734, 506948616, 659060556, 883997877, 958139571, 1322822218,
   1537002063, 1747873779, 1955562222, 2024104815, 2227730452, 2361852424,
   2428436474, 2756734187, 3204031479, 3329325298]

/-- Working registers / chaining state of the compression function. -/
structure Regs where
  a : Nat
  b : Nat
  c : Nat
  d : Nat
  e : Nat
  f : Nat
  g : Nat
  hh : Nat
deriving DecidableEq

/-- Initial SHA-256 hash value (FIPS 180-4, written in decimal). -/
def initRegs : Regs :=
  ⟨1779033703, 3144134277, 1013904242, 2773480762,
   1359893119, 2600822924, 528734635, 1541459225⟩

/-- Big-endian 8-byte encoding of the 64-bit message bit length. -/
def lenBytes (n : Nat) : List Nat :=
  [n / 2 ^ 56 % 256, n / 2 ^ 48 % 256, n / 2 ^ 40 % 256, n / 2 ^ 32 % 256,
   n / 2 ^ 24 % 256, n / 2 ^ 16 % 256, n / 2 ^ 8 % 256, n % 256]

/-- SHA-256 padding: `0x80`, zeros to 56 mod 64, then the bit length. -/
def padBytes (msg : List Nat) : List Nat :=
  msg ++ 128 :: List.replicate ((119 - msg.length % 64) % 64) 0 ++ lenBytes (8 * msg.length)

/-- Fuel-driven 64-byte chunking; the fuel bounds the number of blocks. -/
def chunksAux : Nat → List Nat → List (List Nat)
  | 0, _ => []
  | _ + 1, [] => []
  | n + 1, x :: xs => ((x :: xs).take 64) :: chunksAux n ((x :: xs).drop 64)

/-- Split a byte list into 64-byte blocks. -/
def chunks64 (l : List Nat) : List (List Nat) := chunksAux l.length l

/-- Big-endian packing of bytes into 32-bit words. -/
def bytesToWords : List Nat → List Nat
  | a :: b :: c :: d :: rest => (a * 2 ^ 24 + b * 2 ^ 16 + c * 2 ^ 8 + d) :: bytesToWords rest
  | _ => []

/-- One message-schedule extension step: append `W[n]` from `W[n-2..n-16]`. -/
def stepW (w : List Nat) : List Nat :=
  let n := w.length
  w ++ [(ssig1 (w.getD (n - 2) 0) + w.getD (n - 7) 0 +
         ssig0 (w.getD (n - 15) 0) + w.getD (n - 16) 0) % M32]

/-- Full 64-word message schedule from the 16 block words. -/
def scheduleW (w : List Nat) : List Nat :=
  (List.range 48).foldl (fun acc _ => stepW acc) w

/-- One compression round, consuming a `(k, w)` pair. -/
def roundStep (r : Regs) (kw : Nat × Nat) : Regs :=
  let t1 := (r.hh + bsig1 r.e + ch r.e r.f r.g + kw.1 + kw.2) % M32
  let t2 := (bsig0 r.a + maj r.a r.b r.c) % M32
  ⟨(t1 + t2) % M32, r.a, r.b, r.c, (r.d + t1) % M32, r.e, r.f, r.g⟩

/-- Compress a single 64-byte block into the chaining state. -/
def processBlock (r : Regs) (block : List Nat) : Regs :=
  let w := scheduleW (bytesToWords block)
  let z := (K256.zip w).foldl roundStep r
  ⟨(r.a + z.a) % M32, (r.b + z.b) % M32, (r.c + z.c) % M32, (r.d + z.d) % M32,
   (r.e + z.e) % M32, (r.f + z.f) % M32, (r.g + z.g) % M32, (r.hh + z.hh) % M32⟩

/-- Big-endian byte decomposition of a 32-bit word. -/
def wordBytes (w : Nat) : List Nat :=
  [w / 2 ^ 24 % 256, w / 2 ^ 16 % 256, w / 2 ^ 8 % 256, w % 256]

/-- SHA-256 digest of a byte list, as the list of 32 digest bytes. -/
def sha256bytes (msg : List Nat) : List Nat :=
  let r := (chunks64 (padBytes msg)).foldl processBlock initRegs
  wordBytes r.a ++ wordBytes r.b ++ wordBytes r.c ++ wordBytes r.d ++
  wordBytes r.e ++ wordBytes r.f ++ wordBytes r.g ++ wordBytes r.hh

/-- Lowercase hex digit for a value `< 16`. -/
def hexChar (n : Nat) : Char :=
  Char.ofNat (if n < 10 then 48 + n else 87 + n)

/-- Lowercase hex encoding of a byte list, two digits per byte. -/
def bytesToHexChars : List Nat → List Char
  | [] => []
  | b :: bs => hexChar (b / 16) :: hexChar (b % 16) :: bytesToHexChars bs

/-- The hex digest string: embedding of `hashlib.sha256(content).hexdigest()`. -/
def sha256hex (msg : List Nat) : String :=
  String.mk (bytesToHexChars (sha256bytes msg))

/-- FIPS 180-4 test vector: digest of the empty message. -/
example : sha256hex [] = "e3b0c44298fc1c149afbf4c8996fb92427ae41e4649b934ca495991b7852b855" := by
  decide

/-- FIPS 180-4 test vector: digest of "abc". -/
example : sha256hex [97, 98, 99] =
    "ba7816bf8f01cfea414140de5dae2223b00361a396177a9cb410ff61f20015ad" := by
  decide

/-! ## Data model

Rows mirror the Oracle tables created by `init_database` (`main.py` lines
104-182; `app.py` lacks the `hearings` table but shares the other two and
the same database DSN).  `blockchain_tx` is nullable and never written by
any endpoint, so it is an `Option String`; timestamps are modelled as
naturals. -/

/-- Row of the `cases` table. -/
structure CaseRow where
  case_id : Nat
  case_title : String
  client_name : String
  client_email : String
  client_address : String
  lawyer_name : String
  lawyer_email : String
  case_type : String
  description : String
  client_wallet : String
  lawyer_wallet : String
  blockchain_tx : Option String
  status : String
  created_at : Nat
deriving DecidableEq

/-- Row of the `documents` table. -/
structure DocRow where
  doc_id : Nat
  case_id : Nat
  document_name : String
  document_hash : String
  document_type : String
  uploaded_by : String
  blockchain_tx : Option String
  uploaded_at : Nat
deriving DecidableEq

/-- Row of the `hearings` table. -/
structure HearingRow where
  hearing_id : Nat
  case_id : Nat
  hearing_date : Nat
  hearing_time : String
  court_name : String
  notes : String
  created_at : Nat
deriving DecidableEq

/-- The whole store: the three tables plus the identity-column counters. -/
structure DBState where
  cases : List CaseRow
  documents : List DocRow
  hearings : List HearingRow
  nextCaseId : Nat
  nextDocId : Nat
deriving DecidableEq

/-- Request body of `POST /api/cases` (pydantic `CaseCreate`): note that it
has no `status` and no `blockchain_tx` field. -/
structure CaseCreate where
  case_title : String
  client_name : String
  client_email : String
  client_address : String
  lawyer_name : String
  lawyer_email : String
  case_type : String
  description : String
  client_wallet : String
  lawyer_wallet : String
deriving DecidableEq

/-- Request body of `PUT /api/cases/{id}` (pydantic `CaseUpdate`). -/
structure CaseUpdate where
  case_title : String
  client_name : String
  client_email : String
  client_address : String
  lawyer_name : String
  lawyer_email : String
  case_type : String
  description : String
deriving DecidableEq

/-- Request body of `PUT /api/cases/{id}/status` (pydantic `StatusUpdate`). -/
structure StatusUpdate where
  status : String
deriving DecidableEq

/-- An `HTTPException`: status code plus detail message. -/
structure ErrResp where
  status : Nat
  detail : String
deriving DecidableEq

/-- The `{success, message}` response shape. -/
structure SuccessResp where
  success : Bool
  message : String
deriving DecidableEq

/-- The `{success, case_id, message}` response of case creation. -/
structure CreateResp where
  success : Bool
  case_id : Nat
  message : String
deriving DecidableEq

/-- The `{success, document_hash, message}` response of document upload. -/
structure UploadResp where
  success : Bool
  document_hash : String
  message : String
deriving DecidableEq

/-- The `{total, active, closed, pending}` response of the stats endpoint. -/
structure StatsResp where
  total : Nat
  active : Nat
  closed : Nat
  pending : Nat
deriving DecidableEq

/-- Equality of endpoint results is decidable componentwise. -/
instance {ε α : Type} [DecidableEq ε] [DecidableEq α] : DecidableEq (Except ε α) := fun x y =>
  match x, y with
  | .ok a, .ok b =>
    if h : a = b then isTrue (by rw [h])
    else isFalse (by intro hc; injection hc; contradiction)
  | .error e, .error e' =>
    if h : e = e' then isTrue (by rw [h])
    else isFalse (by intro hc; injection hc; contradiction)
  | .ok _, .error _ => isFalse (by intro hc; exact Except.noConfusion hc)
  | .error _, .ok _ => isFalse (by intro hc; exact Except.noConfusion hc)

/-! ## Oracle error messages surfaced through `str(e)` -/

/-- Driver message for deleting a parent row with live child rows. -/
def oraChildRecordFound : String :=
  "ORA-02292: integrity constraint violated - child record found"

/-- Driver message for violating the `document_hash UNIQUE` constraint. -/
def oraUniqueViolated : String :=
  "ORA-00001: unique constraint violated"

/-- Driver message for inserting a child row with no matching parent. -/
def oraParentKeyNotFound : String :=
  "ORA-02291: integrity constraint violated - parent key not found"

/-! ## Statement-level semantics (fallible SQL steps) -/

/-- Embedding of `DELETE FROM cases WHERE case_id = :1`: Oracle raises
ORA-02292 when the deleted parent row still has child rows in
`documents` or `hearings`; otherwise the matching rows are removed. -/
def execDeleteCases (s : DBState) (i : Nat) : Except String DBState :=
  if (s.cases.any fun c => c.case_id == i) &&
      ((s.documents.any fun d => d.case_id == i) || (s.hearings.any fun h => h.case_id == i)) then
    .error oraChildRecordFound
  else
    .ok { s with cases := s.cases.filter fun c => c.case_id != i }

/-- Embedding of the `INSERT INTO documents ...` statement of
`upload_document`: fails on a duplicate `document_hash` (UNIQUE) or a
missing parent case (FK `fk_case_docs`); `doc_id` comes from the identity
column and `blockchain_tx` stays NULL. -/
def execInsertDocument (s : DBState) (now i : Nat) (nm hsh ty ub : String) :
    Except String DBState :=
  if s.documents.any fun d => d.document_hash == hsh then
    .error oraUniqueViolated
  else if !(s.cases.any fun c => c.case_id == i) then
    .error oraParentKeyNotFound
  else
    .ok { s with
          documents := s.documents ++ [⟨s.nextDocId, i, nm, hsh, ty, ub, none, now⟩],
          nextDocId := s.nextDocId + 1 }

/-! ## Endpoints -/

/-- Embedding of `create_case` (`POST /api/cases`, `main.py` 235-277 and the
identical `app.py` 188-230): inserts a row listing only the ten
`CaseCreate` columns, so `status` takes the column default `'Active'`,
`blockchain_tx` stays NULL, `created_at` is the current timestamp and
`case_id` is the generated identity value, which is returned. -/
def create_case (s : DBState) (now : Nat) (c : CaseCreate) : DBState × CreateResp :=
  let r : CaseRow :=
    ⟨s.nextCaseId, c.case_title, c.client_name, c.client_email, c.client_address,
     c.lawyer_name, c.lawyer_email, c.case_type, c.description,
     c.client_wallet, c.lawyer_wallet, none, "Active", now⟩
  ({ s with cases := s.cases ++ [r], nextCaseId := s.nextCaseId + 1 },
   ⟨true, s.nextCaseId, "Case created successfully"⟩)

/-- Embedding of `get_case` (`GET /api/cases/{case_id}`, `main.py` 320-362
and the identical `app.py` 273-315): `SELECT * FROM cases WHERE case_id = :1`,
`fetchone`, 404 `"Case not found"` when no row matches. -/
def get_case (s : DBState) (i : Nat) : Except ErrResp CaseRow :=
  match s.cases.find? fun c => c.case_id == i with
  | some r => .ok r
  | none => .error ⟨404, "Case not found"⟩

/-- The `SET` clause of the full update: replaces the eight `CaseUpdate`
columns and touches nothing else. -/
def applyCaseUpdate (u : CaseUpdate) (c : CaseRow) : CaseRow :=
  { c with
    case_title := u.case_title, client_name := u.client_name,
    client_email := u.client_email, client_address := u.client_address,
    lawyer_name := u.lawyer_name, lawyer_email := u.lawyer_email,
    case_type := u.case_type, description := u.description }

/-- Embedding of `update_case` (`PUT /api/cases/{case_id}`, `main.py`
365-400): updates every row matching the id (the affected-row count is
never inspected) and always reports success. -/
def update_case (s : DBState) (i : Nat) (u : CaseUpdate) : DBState × SuccessResp :=
  ({ s with cases := s.cases.map fun c => if c.case_id == i then applyCaseUpdate u c else c },
   ⟨true, "Case updated successfully"⟩)

/-- Embedding of `update_case_status` (`PUT /api/cases/{case_id}/status`,
`main.py` 403-432 and the identical `app.py` 318-347). -/
def update_case_status (s : DBState) (i : Nat) (st : StatusUpdate) : DBState × SuccessResp :=
  ({ s with cases := s.cases.map fun c => if c.case_id == i then { c with status := st.status } else c },
   ⟨true, "Status updated successfully"⟩)

/-- Embedding of `delete_case` in `main.py` (435-463): deletes hearings,
then documents, then the case row, committing on success; any statement
error rolls the unit back and surfaces a 500 with the driver text. -/
def delete_case (s : DBState) (i : Nat) : DBState × Except ErrResp SuccessResp :=
  let s1 := { s with hearings := s.hearings.filter fun h => h.case_id != i }
  let s2 := { s1 with documents := s1.documents.filter fun d => d.case_id != i }
  match execDeleteCases s2 i with
  | .ok s3 => (s3, .ok ⟨true, "Case deleted successfully"⟩)
  | .error m => (s, .error ⟨500, m⟩)

/-- Embedding of `delete_case` in `app.py` (350-377): this copy deletes
only documents and then the case row; it issues no statement against
`hearings`. -/
def app_delete_case (s : DBState) (i : Nat) : DBState × Except ErrResp SuccessResp :=
  let s1 := { s with documents := s.documents.filter fun d => d.case_id != i }
  match execDeleteCases s1 i with
  | .ok s2 => (s2, .ok ⟨true, "Case deleted successfully"⟩)
  | .error m => (s, .error ⟨500, m⟩)

/-- One row's contribution to the stats aggregates: `COUNT(*)` and the
three `SUM(CASE WHEN status = '...' THEN 1 ELSE 0 END)` columns. -/
def statsStep (acc : StatsResp) (c : CaseRow) : StatsResp :=
  ⟨acc.total + 1,
   acc.active + (if c.status == "Active" then 1 else 0),
   acc.closed + (if c.status == "Closed" then 1 else 0),
   acc.pending + (if c.status == "Pending" then 1 else 0)⟩

/-- Embedding of `get_case_stats` (`GET /api/cases/stats/overview`,
`main.py` 509-541): the aggregate query folded over the table (the
`row[k] or 0` null-guards are the `0` base of the empty fold). -/
def get_case_stats (s : DBState) : StatsResp :=
  s.cases.foldl statsStep ⟨0, 0, 0, 0⟩

/-- Embedding of `upload_document` (`POST /api/documents/upload`, `main.py`
546-588): hash the content, insert the document row, commit; on a
statement error roll back and surface a 500 with the driver text. -/
def upload_document (s : DBState) (now i : Nat) (nm ty ub : String) (content : List Nat) :
    DBState × Except ErrResp UploadResp :=
  let hsh := sha256hex content
  match execInsertDocument s now i nm hsh ty ub with
  | .ok s' => (s', .ok ⟨true, hsh, "Document uploaded successfully"⟩)
  | .error m => (s, .error ⟨500, m⟩)

/-! ## Search (`GET /api/cases/search/{query}`, `main.py` 466-506) -/

/-- Character-level SQL `LIKE` matching: `%` matches any sequence, `_`
matches any single character, anything else matches itself. -/
def likeMatch : List Char → List Char → Bool
  | [], s => s.isEmpty
  | p :: ps, s =>
    if p = '%' then starLoop (likeMatch ps) s
    else
      match s with
      | [] => false
      | c :: s' => (p == '_' || p == c) && likeMatch ps s'
where
  /-- Try the rest of the pattern against every suffix of the text. -/
  starLoop (f : List Char → Bool) : List Char → Bool
    | [] => f []
    | c :: s' => f (c :: s') || starLoop f s'

/-- SQL `UPPER`, character by character. -/
def upperChars (l : List Char) : List Char := l.map Char.toUpper

/-- The bound search parameter `f"%{query}%"`. -/
def likePattern (q : String) : List Char := '%' :: q.data ++ ['%']

/-- One `UPPER(field) LIKE UPPER(:1)` disjunct of the search `WHERE` clause. -/
def sqlUpperLike (q : String) (field : String) : Bool :=
  likeMatch (upperChars (likePattern q)) (upperChars field.data)

/-- The full `WHERE` clause: logical OR over the four searched columns
(`case_title`, `client_name`, `lawyer_name`, `case_type`). -/
def matchesQuery (q : String) (c : CaseRow) : Bool :=
  sqlUpperLike q c.case_title || sqlUpperLike q c.client_name ||
  sqlUpperLike q c.lawyer_name || sqlUpperLike q c.case_type

/-- Insert a row into a list kept in descending `created_at` order. -/
def insertDesc (c : CaseRow) : List CaseRow → List CaseRow
  | [] => [c]
  | d :: ds => if d.created_at ≤ c.created_at then c :: d :: ds else d :: insertDesc c ds

/-- `ORDER BY created_at DESC`. -/
def sortByCreatedDesc (l : List CaseRow) : List CaseRow := l.foldr insertDesc []

/-- Embedding of `search_cases`: filter by the `LIKE` disjunction, order by
creation timestamp descending. -/
def search_cases (s : DBState) (q : String) : List CaseRow :=
  sortByCreatedDesc (s.cases.filter (matchesQuery q))

/-! ## Spec-side definitions (for refinement comparison only)

These two follow the words of the specification — "case-insensitive
substring" — rather than the SQL in the source, so that the search claim
can be compared against the code's `LIKE`-based behaviour. -/

/-- Spec words: `q` starts the text (character-wise, after case folding is
applied by the caller). -/
def startsWithChars : List Char → List Char → Bool
  | [], _ => true
  | _ :: _, [] => false
  | a :: as, b :: bs => a == b && startsWithChars as bs

/-- Spec words: `q` occurs as a contiguous substring of `t`. -/
def hasSubstring (q : List Char) : List Char → Bool
  | [] => startsWithChars q []
  | c :: t' => startsWithChars q (c :: t') || hasSubstring q t'

/-- Spec words: the query is a case-insensitive substring of the field. -/
def specCIMatch (q field : String) : Bool :=
  hasSubstring (upperChars q.data) (upperChars field.data)

/-! ## Sample rows and stores used by witnesses and counterexamples -/

/-- Default row used with `List.getD`. -/
def case0 : CaseRow := ⟨0, "", "", "", "", "", "", "", "", "", "", none, "", 0⟩

/-- A concrete case row. -/
def cSample : CaseRow :=
  ⟨1, "Estate of Day", "Carla Day", "carla@x", "1 High St", "Lee Park", "lee@x",
   "Civil", "probate dispute", "0xC", "0xL", none, "Active", 10⟩

/-- Store holding just `cSample`. -/
def sSample : DBState := ⟨[cSample], [], [], 2, 1⟩

/-- A second concrete case row, with a different id and timestamp. -/
def cSample2 : CaseRow :=
  ⟨2, "State v Roe", "Ann Roe", "ann@x", "2 Low St", "Max Boon", "max@x",
   "Criminal", "appeal", "0xD", "0xM", none, "Pending", 20⟩

/-- Store holding `cSample` and `cSample2`. -/
def sTwo : DBState := ⟨[cSample, cSample2], [], [], 3, 1⟩

/-- A concrete full-update body. -/
def uSample : CaseUpdate :=
  ⟨"Estate of Day (amended)", "Carla A. Day", "carla2@x", "3 High St",
   "Lee Park", "lee2@x", "Probate", "updated description"⟩

/-- Helper building a minimal case row with a given id and status. -/
def statusCase (n : Nat) (st : String) : CaseRow :=
  ⟨n, "", "", "", "", "", "", "", "", "", "", none, st, 0⟩

/-- The five-case store from the spec's stats example. -/
def statsDemo : DBState :=
  ⟨[statusCase 1 "Active", statusCase 2 "Active", statusCase 3 "Closed",
    statusCase 4 "Pending", statusCase 5 "Archived"], [], [], 6, 1⟩

/-! ## Helper lemmas -/

/-- With pairwise-distinct ids, `find?` locates exactly the member row
carrying the requested id. -/
theorem find_case_unique (l : List CaseRow) (i : Nat)
    (hnd : (l.map fun c => c.case_id).Nodup) (c : CaseRow) (hc : c ∈ l)
    (hci : c.case_id = i) :
    l.find? (fun x => x.case_id == i) = some c := by
  induction l with
  | nil => cases hc
  | cons d t ih =>
    simp only [List.map_cons, List.nodup_cons] at hnd
    rcases List.mem_cons.mp hc with rfl | hct
    · exact List.find?_cons_of_pos _ (by simp [hci])
    · have hdi : d.case_id ≠ i := by
        intro hdi
        exact hnd.1 (List.mem_map.mpr ⟨c, hct, by rw [hci, hdi]⟩)
      rw [List.find?_cons_of_neg _ (by simp [hdi])]
      exact ih hnd.2 hct

/-- Mapping a per-row update over rows none of which match the id is the
identity. -/
theorem map_if_id (l : List CaseRow) (i : Nat) (f : CaseRow → CaseRow)
    (h : ∀ c ∈ l, c.case_id ≠ i) :
    (l.map fun c => if c.case_id == i then f c else c) = l := by
  induction l with
  | nil => rfl
  | cons d t ih =>
    have hd : ¬(d.case_id == i) = true := by
      simpa using h d (List.mem_cons_self d t)
    simp only [List.map_cons, if_neg hd]
    rw [ih fun c hc => h c (List.mem_cons_of_mem d hc)]

/-- `getD` after `map`, under the length bound. -/
theorem getD_map_lt {α β : Type} (f : α → β) (l : List α) (j : Nat)
    (h : j < l.length) (d : β) (d0 : α) :
    (l.map f).getD j d = f (l.getD j d0) := by
  induction l generalizing j with
  | nil => simp at h
  | cons x t ih =>
    cases j with
    | zero => rfl
    | succ k => simpa using ih k (by simpa using h)

/-- Closed form of the stats fold. -/
theorem stats_foldl (l : List CaseRow) (acc : StatsResp) :
    l.foldl statsStep acc =
      ⟨acc.total + l.length,
       acc.active + (l.filter fun c => c.status == "Active").length,
       acc.closed + (l.filter fun c => c.status == "Closed").length,
       acc.pending + (l.filter fun c => c.status == "Pending").length⟩ := by
  induction l generalizing acc with
  | nil => simp
  | cons c t ih =>
    simp only [List.foldl_cons, ih, List.length_cons, List.filter_cons]
    by_cases h1 : c.status == "Active" <;> by_cases h2 : c.status == "Closed" <;>
      by_cases h3 : c.status == "Pending" <;>
        simp [statsStep, h1, h2, h3] <;> omega

/-! ## Claim C5: get-by-id error behaviour -/

/-- C5: fetching a case by an identifier that matches no stored row fails
with HTTP 404 and the message "Case not found"; the only error the
operation can produce is that 404 (no store-layer text leaks); and, with
the store's id-uniqueness invariant, fetching an existing case returns
that case's full record. -/
theorem get_case_notfound_spec (s : DBState) (i : Nat) :
    ((∀ c ∈ s.cases, c.case_id ≠ i) → get_case s i = .error ⟨404, "Case not found"⟩)
    ∧ (∀ e, get_case s i = .error e → e = ⟨404, "Case not found"⟩)
    ∧ ((s.cases.map fun c => c.case_id).Nodup →
        ∀ c ∈ s.cases, c.case_id = i → get_case s i = .ok c) := by
  refine ⟨?_, ?_, ?_⟩
  · intro h
    have hf : s.cases.find? (fun c => c.case_id == i) = none := by
      rw [List.find?_eq_none]
      intro c hc
      simpa using h c hc
    simp [get_case, hf]
  · intro e he
    unfold get_case at he
    cases hf : s.cases.find? (fun c => c.case_id == i) with
    | some r => rw [hf] at he; cases he
    | none =>
      rw [hf] at he
      exact (Except.error.injEq _ _ ▸ he).symm
  · intro hnd c hc hci
    simp [get_case, find_case_unique s.cases i hnd c hc hci]

/-- Witness for C5: in the one-case store, id 2 yields the 404 and id 1
yields the stored row. -/
theorem get_case_notfound_witness :
    get_case sSample 2 = .error ⟨404, "Case not found"⟩
    ∧ get_case sSample 1 = .ok cSample :=
  ⟨(get_case_notfound_spec sSample 2).1 (by decide),
   (get_case_notfound_spec sSample 1).2.2 (by decide) cSample (by decide) (by decide)⟩

/-! ## Claim C6: updates succeed without an existence check -/

/-- C6: the full update and the status update always report success, for
every store and target id — in particular when no row carries the id, in
which case the store is also left unchanged; neither operation can raise
a NotFound error (their result type has no error alternative, matching
the code, which never inspects the affected-row count). -/
theorem update_no_existence_check (s : DBState) (i : Nat) (u : CaseUpdate) (st : StatusUpdate) :
    (update_case s i u).2 = ⟨true, "Case updated successfully"⟩
    ∧ (update_case_status s i st).2 = ⟨true, "Status updated successfully"⟩
    ∧ ((∀ c ∈ s.cases, c.case_id ≠ i) →
        (update_case s i u).1 = s ∧ (update_case_status s i st).1 = s) := by
  refine ⟨rfl, rfl, fun h => ⟨?_, ?_⟩⟩
  · have hm : (s.cases.map fun c => if c.case_id == i then applyCaseUpdate u c else c) = s.cases :=
      map_if_id s.cases i (applyCaseUpdate u) h
    show ({ s with cases := s.cases.map fun c => if c.case_id == i then applyCaseUpdate u c else c } : DBState) = s
    rw [hm]
  · have hm : (s.cases.map fun c => if c.case_id == i then { c with status := st.status } else c) = s.cases :=
      map_if_id s.cases i (fun c => { c with status := st.status }) h
    show ({ s with cases := s.cases.map fun c => if c.case_id == i then { c with status := st.status } else c } : DBState) = s
    rw [hm]

/-- Witness for C6: updating the absent id 99 reports success and leaves
the store untouched. -/
theorem update_no_existence_check_witness :
    (update_case sSample 99 uSample).2 = ⟨true, "Case updated successfully"⟩
    ∧ (update_case_status sSample 99 ⟨"Closed"⟩).1 = sSample :=
  ⟨(update_no_existence_check sSample 99 uSample ⟨"Closed"⟩).1,
   ((update_no_existence_check sSample 99 uSample ⟨"Closed"⟩).2.2 (by decide)).2⟩

/-! ## Claim C7: full update replaces only the mutable attributes -/

/-- C7: a full update leaves the documents and hearings tables and the
case count unchanged; rows whose id differs from the target are unchanged;
and the row carrying the target id keeps its status, wallets, blockchain
reference, identifier and creation timestamp while the eight mutable
attributes are replaced by the request values. -/
theorem update_case_frame (s : DBState) (i : Nat) (u : CaseUpdate) :
    ((update_case s i u).1).cases.length = s.cases.length
    ∧ ((update_case s i u).1).documents = s.documents
    ∧ ((update_case s i u).1).hearings = s.hearings
    ∧ ∀ j, j < s.cases.length →
        (((s.cases.getD j case0).case_id ≠ i →
            ((update_case s i u).1).cases.getD j case0 = s.cases.getD j case0)
        ∧ ((s.cases.getD j case0).case_id = i →
            (((update_case s i u).1).cases.getD j case0).status = (s.cases.getD j case0).status
            ∧ (((update_case s i u).1).cases.getD j case0).client_wallet = (s.cases.getD j case0).client_wallet
            ∧ (((update_case s i u).1).cases.getD j case0).lawyer_wallet = (s.cases.getD j case0).lawyer_wallet
            ∧ (((update_case s i u).1).cases.getD j case0).blockchain_tx = (s.cases.getD j case0).blockchain_tx
            ∧ (((update_case s i u).1).cases.getD j case0).case_id = (s.cases.getD j case0).case_id
            ∧ (((update_case s i u).1).cases.getD j case0).created_at = (s.cases.getD j case0).created_at
            ∧ (((update_case s i u).1).cases.getD j case0).case_title = u.case_title
            ∧ (((update_case s i u).1).cases.getD j case0).client_name = u.client_name
            ∧ (((update_case s i u).1).cases.getD j case0).client_email = u.client_email
            ∧ (((update_case s i u).1).cases.getD j case0).client_address = u.client_address
            ∧ (((update_case s i u).1).cases.getD j case0).lawyer_name = u.lawyer_name
            ∧ (((update_case s i u).1).cases.getD j case0).lawyer_email = u.lawyer_email
            ∧ (((update_case s i u).1).cases.getD j case0).case_type = u.case_type
            ∧ (((update_case s i u).1).cases.getD j case0).description = u.description)) := by
  refine ⟨by simp [update_case], rfl, rfl, fun j hj => ?_⟩
  have hmap :
      ((update_case s i u).1).cases.getD j case0 =
        (if (s.cases.getD j case0).case_id == i
         then applyCaseUpdate u (s.cases.getD j case0) else s.cases.getD j case0) := by
    simpa [update_case] using
      getD_map_lt (fun c => if c.case_id == i then applyCaseUpdate u c else c)
        s.cases j hj case0 case0
  constructor
  · intro hne
    rw [hmap, if_neg (by simpa using hne)]
  · intro heq
    rw [hmap, if_pos (by simpa using heq)]
    simp [applyCaseUpdate]

/-- Witness for C7: in the two-case store, updating case 1 leaves row 1
(`cSample2`) untouched and preserves the status of row 0. -/
theorem update_case_frame_witness :
    (1 : Nat) < sTwo.cases.length
    ∧ ((update_case sTwo 1 uSample).1).cases.getD 1 case0 = sTwo.cases.getD 1 case0
    ∧ (((update_case sTwo 1 uSample).1).cases.getD 0 case0).status = "Active"
    ∧ (((update_case sTwo 1 uSample).1).cases.getD 0 case0).case_title = uSample.case_title := by
  refine ⟨by decide, ?_, ?_, ?_⟩
  · exact ((update_case_frame sTwo 1 uSample).2.2.2 1 (by decide)).1 (by decide)
  · have h := ((update_case_frame sTwo 1 uSample).2.2.2 0 (by decide)).2 (by decide)
    rw [h.1]; decide
  · exact ((update_case_frame sTwo 1 uSample).2.2.2 0 (by decide)).2 (by decide) |>.2.2.2.2.2.2.1

/-! ## Claim C8: the stats aggregates -/

/-- C8: the stats endpoint returns the table cardinality as `total` and
the exact-match counts of the statuses `Active`, `Closed` and `Pending`;
a row with any other status contributes only to `total`, as on the
spec's five-status example. -/
theorem get_case_stats_spec (s : DBState) :
    get_case_stats s =
      ⟨s.cases.length,
       (s.cases.filter fun c => c.status == "Active").length,
       (s.cases.filter fun c => c.status == "Closed").length,
       (s.cases.filter fun c => c.status == "Pending").length⟩
    ∧ get_case_stats statsDemo = ⟨5, 2, 1, 1⟩ := by
  constructor
  · simpa using stats_foldl s.cases ⟨0, 0, 0, 0⟩
  · decide

/-! ## Claim C10: creation defaults -/

/-- C10: every case created through `create_case` is appended with status
exactly `'Active'` and a NULL blockchain transaction reference, carrying
the generated identifier and the server timestamp; the `CaseCreate`
request type exposes no status or transaction-reference field, so the
caller cannot influence either. -/
theorem create_case_defaults (s : DBState) (now : Nat) (c : CaseCreate) :
    ∃ r : CaseRow,
      ((create_case s now c).1).cases = s.cases ++ [r]
      ∧ r.status = "Active"
      ∧ r.blockchain_tx = none
      ∧ r.case_id = s.nextCaseId
      ∧ r.created_at = now
      ∧ (create_case s now c).2 = ⟨true, s.nextCaseId, "Case created successfully"⟩ :=
  ⟨_, rfl, rfl, rfl, rfl, rfl, rfl⟩

/-! ## Delete helpers -/

/-- Rows filtered on an id carry no row with that id. -/
theorem any_filter_ne {α : Type} (p : α → Nat) (l : List α) (i : Nat) :
    ((l.filter fun x => p x != i).any fun x => p x == i) = false := by
  induction l with
  | nil => rfl
  | cons x t ih =>
    by_cases hx : p x = i <;> simp [List.filter_cons, hx, ih]

/-- The parent-row delete succeeds when no document and no hearing still
references the id. -/
theorem execDeleteCases_ok (s : DBState) (i : Nat)
    (hd : (s.documents.any fun d => d.case_id == i) = false)
    (hh : (s.hearings.any fun h => h.case_id == i) = false) :
    execDeleteCases s i = .ok { s with cases := s.cases.filter fun c => c.case_id != i } := by
  unfold execDeleteCases
  rw [if_neg]
  simp [hd, hh]

/-- The parent-row delete raises ORA-02292 when the deleted case still has
a child row. -/
theorem execDeleteCases_err (s : DBState) (i : Nat)
    (hc : (s.cases.any fun c => c.case_id == i) = true)
    (hch : ((s.documents.any fun d => d.case_id == i) ||
            (s.hearings.any fun h => h.case_id == i)) = true) :
    execDeleteCases s i = .error oraChildRecordFound := by
  unfold execDeleteCases
  rw [if_pos]
  rw [hc, hch]
  rfl

/-- The parent-row delete trivially succeeds when no case row carries the
id (zero parent rows are deleted, so no child can be orphaned). -/
theorem execDeleteCases_ok_nocase (s : DBState) (i : Nat)
    (hc : (s.cases.any fun c => c.case_id == i) = false) :
    execDeleteCases s i = .ok { s with cases := s.cases.filter fun c => c.case_id != i } := by
  unfold execDeleteCases
  rw [if_neg]
  simp [hc]

/-- The `main.py` delete always commits, removing the hearings, documents
and case rows of the id. -/
theorem delete_case_run (s : DBState) (i : Nat) :
    delete_case s i =
      ({ s with cases := s.cases.filter fun c => c.case_id != i,
                documents := s.documents.filter fun d => d.case_id != i,
                hearings := s.hearings.filter fun h => h.case_id != i },
       .ok ⟨true, "Case deleted successfully"⟩) := by
  have hok :=
    execDeleteCases_ok
      ({ s with hearings := s.hearings.filter fun h => h.case_id != i,
                documents := s.documents.filter fun d => d.case_id != i } : DBState) i
      (any_filter_ne _ _ _) (any_filter_ne _ _ _)
  simp only [delete_case]
  split
  · rename_i s3 heq
    rw [hok] at heq
    injection heq with h2
    subst h2
    rfl
  · rename_i m heq
    rw [hok] at heq
    exact Except.noConfusion heq

/-- Behaviour split of the `app.py` delete: with both a case row and a
hearing row on the id it rolls back with ORA-02292; otherwise it commits,
removing only the document and case rows. -/
theorem app_delete_case_split (s : DBState) (i : Nat) :
    (((s.cases.any fun c => c.case_id == i) && (s.hearings.any fun h => h.case_id == i)) = true →
        app_delete_case s i = (s, .error ⟨500, oraChildRecordFound⟩))
    ∧ (((s.cases.any fun c => c.case_id == i) && (s.hearings.any fun h => h.case_id == i)) = false →
        app_delete_case s i =
          ({ s with cases := s.cases.filter fun c => c.case_id != i,
                    documents := s.documents.filter fun d => d.case_id != i },
           .ok ⟨true, "Case deleted successfully"⟩)) := by
  constructor
  · intro hcond
    rw [Bool.and_eq_true] at hcond
    have herr : execDeleteCases
        ({ s with documents := s.documents.filter fun d => d.case_id != i } : DBState) i =
        .error oraChildRecordFound := by
      apply execDeleteCases_err
      · exact hcond.1
      · simp [any_filter_ne, hcond.2]
    simp only [app_delete_case]
    split
    · rename_i s2 heq
      rw [herr] at heq
      exact Except.noConfusion heq
    · rename_i m heq
      rw [herr] at heq
      injection heq with h2
      subst h2
      rfl
  · intro hcond
    have hok : execDeleteCases
        ({ s with documents := s.documents.filter fun d => d.case_id != i } : DBState) i =
        .ok { s with cases := s.cases.filter fun c => c.case_id != i,
                     documents := s.documents.filter fun d => d.case_id != i } := by
      rcases Bool.and_eq_false_iff.mp hcond with h | h
      · exact execDeleteCases_ok_nocase _ _ h
      · exact execDeleteCases_ok _ _ (any_filter_ne _ _ _) h
    simp only [app_delete_case]
    split
    · rename_i s2 heq
      rw [hok] at heq
      injection heq with h2
      subst h2
      rfl
    · rename_i m heq
      rw [hok] at heq
      exact Except.noConfusion heq

/-! ## Claim C1: the two delete entry points -/

/-- A hearing row attached to case 1. -/
def hSample : HearingRow := ⟨1, 1, 20250101, "10:00", "High Court", "first hearing", 3⟩

/-- Store with case 1 and one hearing on it. -/
def sWithHearing : DBState := ⟨[cSample], [], [hSample], 2, 1⟩

/-- C1 as stated is false for the `app.py` entry point: deleting case 1
from a store holding a hearing for case 1 leaves the hearing row and the
case row in place (the endpoint issues no hearings delete and the case
delete is blocked by the child row), instead of removing them. -/
theorem app_delete_case_counterexample :
    (app_delete_case sWithHearing 1).1.hearings = [hSample]
    ∧ cSample ∈ (app_delete_case sWithHearing 1).1.cases
    ∧ (app_delete_case sWithHearing 1).2 = .error ⟨500, oraChildRecordFound⟩ := by
  decide

/-- C1 amended: the `main.py` delete removes all hearings, then all
documents, then the case row, as one committed unit; the `app.py` delete
never touches the hearings table, and removes the documents and the case
row only when no hearing row references the id — when the case exists and
a hearing row references it, the whole unit is rolled back with the
child-record error instead. -/
theorem delete_case_cascade (s : DBState) (i : Nat) :
    delete_case s i =
      ({ s with cases := s.cases.filter fun c => c.case_id != i,
                documents := s.documents.filter fun d => d.case_id != i,
                hearings := s.hearings.filter fun h => h.case_id != i },
       .ok ⟨true, "Case deleted successfully"⟩)
    ∧ (app_delete_case s i).1.hearings = s.hearings
    ∧ ((∀ h ∈ s.hearings, h.case_id ≠ i) →
        app_delete_case s i =
          ({ s with cases := s.cases.filter fun c => c.case_id != i,
                    documents := s.documents.filter fun d => d.case_id != i },
           .ok ⟨true, "Case deleted successfully"⟩))
    ∧ ((∃ c ∈ s.cases, c.case_id = i) → (∃ h ∈ s.hearings, h.case_id = i) →
        app_delete_case s i = (s, .error ⟨500, oraChildRecordFound⟩)) := by
  refine ⟨delete_case_run s i, ?_, ?_, ?_⟩
  · by_cases hcond :
        ((s.cases.any fun c => c.case_id == i) && (s.hearings.any fun h => h.case_id == i)) = true
    · rw [(app_delete_case_split s i).1 hcond]
    · rw [(app_delete_case_split s i).2 (Bool.not_eq_true _ ▸ hcond)]
  · intro hnone
    have hh : (s.hearings.any fun h => h.case_id == i) = false := by
      rw [Bool.eq_false_iff]
      intro hcontra
      rcases List.any_eq_true.mp hcontra with ⟨h, hmem, hbeq⟩
      exact hnone h hmem (by simpa using hbeq)
    exact (app_delete_case_split s i).2 (by rw [hh, Bool.and_false])
  · intro ⟨c, hc, hci⟩ ⟨h, hmem, hhi⟩
    refine (app_delete_case_split s i).1 ?_
    rw [Bool.and_eq_true]
    exact ⟨List.any_eq_true.mpr ⟨c, hc, by simpa using hci⟩,
           List.any_eq_true.mpr ⟨h, hmem, by simpa using hhi⟩⟩

/-- Witness for C1 (amended): the full cascade on the hearing-bearing
store through `main.py`, the document-and-case delete through `app.py` on
a hearing-free store, and the blocked `app.py` delete when a hearing
exists. -/
theorem delete_case_cascade_witness :
    delete_case sWithHearing 1 = (⟨[], [], [], 2, 1⟩, .ok ⟨true, "Case deleted successfully"⟩)
    ∧ app_delete_case sSample 1 = (⟨[], [], [], 2, 1⟩, .ok ⟨true, "Case deleted successfully"⟩)
    ∧ app_delete_case sWithHearing 1 = (sWithHearing, .error ⟨500, oraChildRecordFound⟩) := by
  refine ⟨?_, ?_, ?_⟩
  · rw [(delete_case_cascade sWithHearing 1).1]; decide
  · rw [(delete_case_cascade sSample 1).2.2.1 (by decide)]; decide
  · exact (delete_case_cascade sWithHearing 1).2.2.2 ⟨cSample, by decide, by decide⟩
      ⟨hSample, by decide, by decide⟩

/-! ## Claim C2: the delete unit is all-or-nothing -/

/-- C2: for both entry points, if the delete unit errors the store is
returned unchanged (zero rows deleted), and if it reports success the
committed store is exactly the original minus the rows the unit's delete
statements target. -/
theorem delete_case_atomic (s : DBState) (i : Nat) :
    (∀ e, (delete_case s i).2 = .error e → (delete_case s i).1 = s)
    ∧ (∀ r, (delete_case s i).2 = .ok r →
        (delete_case s i).1 =
          { s with cases := s.cases.filter fun c => c.case_id != i,
                   documents := s.documents.filter fun d => d.case_id != i,
                   hearings := s.hearings.filter fun h => h.case_id != i })
    ∧ (∀ e, (app_delete_case s i).2 = .error e → (app_delete_case s i).1 = s)
    ∧ (∀ r, (app_delete_case s i).2 = .ok r →
        (app_delete_case s i).1 =
          { s with cases := s.cases.filter fun c => c.case_id != i,
                   documents := s.documents.filter fun d => d.case_id != i }) := by
  refine ⟨?_, ?_, ?_, ?_⟩
  · intro e he
    rw [delete_case_run] at he
    exact Except.noConfusion he
  · intro r _
    rw [delete_case_run]
  · intro e he
    by_cases hcond :
        ((s.cases.any fun c => c.case_id == i) && (s.hearings.any fun h => h.case_id == i)) = true
    · rw [(app_delete_case_split s i).1 hcond]
    · rw [(app_delete_case_split s i).2 (Bool.not_eq_true _ ▸ hcond)] at he
      exact Except.noConfusion he
  · intro r hr
    by_cases hcond :
        ((s.cases.any fun c => c.case_id == i) && (s.hearings.any fun h => h.case_id == i)) = true
    · rw [(app_delete_case_split s i).1 hcond] at hr
      exact Except.noConfusion hr
    · rw [(app_delete_case_split s i).2 (Bool.not_eq_true _ ▸ hcond)]

/-- Witness for C2: the blocked `app.py` delete on the hearing-bearing
store leaves the store exactly as it was; the successful `main.py` delete
leaves the filtered store. -/
theorem delete_case_atomic_witness :
    (app_delete_case sWithHearing 1).1 = sWithHearing
    ∧ (delete_case sWithHearing 1).1 = (⟨[], [], [], 2, 1⟩ : DBState) := by
  constructor
  · exact (delete_case_atomic sWithHearing 1).2.2.1 ⟨500, oraChildRecordFound⟩ (by decide)
  · have h := (delete_case_atomic sWithHearing 1).2.1 ⟨true, "Case deleted successfully"⟩ (by decide)
    rw [h]
    decide

/-! ## Claim C4: global document-hash uniqueness -/

/-- C4: if an upload of some content committed, then a second upload of
byte-identical content — to any case, with any metadata — fails with the
unique-constraint error, the store after the failed upload is unchanged,
and it holds exactly one document row carrying that content hash. -/
theorem upload_document_unique (s s1 : DBState) (now1 now2 i1 i2 : Nat)
    (n1 t1 u1 n2 t2 u2 : String) (content : List Nat) (r : UploadResp)
    (h1 : upload_document s now1 i1 n1 t1 u1 content = (s1, .ok r)) :
    (upload_document s1 now2 i2 n2 t2 u2 content).2 = .error ⟨500, oraUniqueViolated⟩
    ∧ (upload_document s1 now2 i2 n2 t2 u2 content).1 = s1
    ∧ (s1.documents.filter fun d => d.document_hash == sha256hex content).length = 1 := by
  simp only [upload_document] at h1
  revert h1
  cases hE : execInsertDocument s now1 i1 n1 (sha256hex content) t1 u1 with
  | error m =>
    intro h1
    exact absurd (congrArg Prod.snd h1) (by simp)
  | ok s' =>
    intro h1
    have hs1 : s1 = s' := (Prod.mk.injEq _ _ _ _ ▸ h1).1.symm
    subst hs1
    unfold execInsertDocument at hE
    revert hE
    split
    · intro hE
      exact Except.noConfusion hE
    · split
      · intro hE
        exact Except.noConfusion hE
      · rename_i hdup hfk
        intro hE
        injection hE with hE'
        subst hE'
        have hrow : (s.documents.filter fun d => d.document_hash == sha256hex content) = [] := by
          rw [List.filter_eq_nil_iff]
          intro d hd hcontra
          exact absurd (List.any_eq_true.mpr ⟨d, hd, hcontra⟩) hdup
        have hany : (((s.documents ++
            [⟨s.nextDocId, i1, n1, sha256hex content, t1, u1, none, now1⟩]) : List DocRow).any
              fun d => d.document_hash == sha256hex content) = true := by
          rw [List.any_append]
          simp
        refine ⟨?_, ?_, ?_⟩
        · simp only [upload_document, execInsertDocument]
          rw [if_pos hany]
        · simp only [upload_document, execInsertDocument]
          rw [if_pos hany]
        · show ((((s.documents ++ [_]) : List DocRow).filter
              fun d => d.document_hash == sha256hex content).length = 1)
          rw [List.filter_append, hrow]
          simp

/-- The SHA-256 hex digest of empty content. -/
def emptyContentHash : String :=
  "e3b0c44298fc1c149afbf4c8996fb92427ae41e4649b934ca495991b7852b855"

/-- Store state after a committed upload of empty content to case 1. -/
def sAfterUpload : DBState :=
  { sSample with
    documents := [⟨1, 1, "contract.pdf", emptyContentHash, "pdf", "Carla Day", none, 7⟩],
    nextDocId := 2 }

/-- Witness for C4: after the committed empty-content upload, a second
upload of the same content to a different case fails with the uniqueness
error and the store keeps exactly one row with that hash. -/
theorem upload_document_unique_witness :
    (upload_document sAfterUpload 8 2 "copy.pdf" "pdf" "Max Boon" []).2 =
      .error ⟨500, oraUniqueViolated⟩
    ∧ (sAfterUpload.documents.filter fun d => d.document_hash == sha256hex []).length = 1 := by
  have h := upload_document_unique sSample sAfterUpload 7 8 1 2 "contract.pdf" "pdf" "Carla Day"
    "copy.pdf" "pdf" "Max Boon" [] ⟨true, emptyContentHash, "Document uploaded successfully"⟩
    (by decide)
  exact ⟨h.1, h.2.2⟩

/-! ## Claim C3: the content hasher -/

/-- The sixteen lowercase hexadecimal digits. -/
def hexDigits : List Char := "0123456789abcdef".data

/-- Hex digits of values below 16 are lowercase hexadecimal characters. -/
theorem hexChar_mem_hexDigits : ∀ n, n < 16 → hexChar n ∈ hexDigits := by decide

/-- Every word byte is below 256. -/
theorem mem_wordBytes_lt {b w : Nat} (hb : b ∈ wordBytes w) : b < 256 := by
  simp only [wordBytes, List.mem_cons, List.not_mem_nil, or_false] at hb
  rcases hb with rfl | rfl | rfl | rfl <;> exact Nat.mod_lt _ (by omega)

/-- The digest consists of 32 bytes, each below 256. -/
theorem sha256bytes_shape (msg : List Nat) :
    (sha256bytes msg).length = 32 ∧ ∀ b ∈ sha256bytes msg, b < 256 := by
  constructor
  · simp [sha256bytes, wordBytes]
  · intro b hb
    simp only [sha256bytes, List.mem_append] at hb
    rcases hb with ((((((hb | hb) | hb) | hb) | hb) | hb) | hb) | hb <;>
      exact mem_wordBytes_lt hb

/-- The hex encoding doubles the length. -/
theorem bytesToHexChars_length (l : List Nat) :
    (bytesToHexChars l).length = 2 * l.length := by
  induction l with
  | nil => rfl
  | cons b bs ih => simp [bytesToHexChars, ih]; omega

/-- Hex encodings of byte lists use only lowercase hexadecimal digits. -/
theorem mem_bytesToHexChars (l : List Nat) (hl : ∀ b ∈ l, b < 256) :
    ∀ c ∈ bytesToHexChars l, c ∈ hexDigits := by
  induction l with
  | nil => intro c hc; cases hc
  | cons b bs ih =>
    intro c hc
    have hb : b < 256 := hl b (List.mem_cons_self b bs)
    rcases List.mem_cons.mp hc with rfl | hc'
    · exact hexChar_mem_hexDigits _ (Nat.div_lt_of_lt_mul (by omega))
    · rcases List.mem_cons.mp hc' with rfl | hc''
      · exact hexChar_mem_hexDigits _ (Nat.mod_lt _ (by omega))
      · exact ih (fun x hx => hl x (List.mem_cons_of_mem b hx)) c hc''

/-- C3: the content hasher is a pure deterministic function — equal byte
strings yield the same digest — and the digest is always the 64-character
lowercase-hexadecimal encoding of the 32-byte (256-bit) SHA-256 value of
the input. -/
theorem sha256hex_deterministic_hex64 (b1 b2 : List Nat) (hb : b1 = b2) :
    sha256hex b1 = sha256hex b2
    ∧ (sha256hex b1).length = 64
    ∧ (∀ c ∈ (sha256hex b1).data, c ∈ hexDigits)
    ∧ sha256hex b1 = String.mk (bytesToHexChars (sha256bytes b1))
    ∧ (sha256bytes b1).length = 32
    ∧ (∀ y ∈ sha256bytes b1, y < 256) := by
  obtain ⟨hlen, hmem⟩ := sha256bytes_shape b1
  refine ⟨by rw [hb], ?_, ?_, rfl, hlen, hmem⟩
  · show (bytesToHexChars (sha256bytes b1)).length = 64
    rw [bytesToHexChars_length, hlen]
  · intro c hc
    exact mem_bytesToHexChars _ hmem c hc

/-- Witness for C3: the determinism and format conclusions instantiated on
the empty byte string. -/
theorem sha256hex_deterministic_hex64_witness :
    sha256hex [] = sha256hex [] ∧ (sha256hex []).length = 64 :=
  ⟨(sha256hex_deterministic_hex64 [] [] rfl).1,
   (sha256hex_deterministic_hex64 [] [] rfl).2.1⟩

/-! ## Claim C9: search semantics -/

/-- A bare `%` pattern matches every text. -/
theorem likeMatch_pct : ∀ s, likeMatch ['%'] s = true := by
  intro s
  induction s with
  | nil => rfl
  | cons c s' ih =>
    show (likeMatch [] (c :: s') || likeMatch ['%'] s') = true
    rw [ih, Bool.or_true]

/-- A wildcard-free pattern followed by `%` matches exactly the texts the
pattern starts. -/
theorem likeMatch_lit (q : List Char) (hq : ∀ c ∈ q, c ≠ '%' ∧ c ≠ '_') :
    ∀ s, likeMatch (q ++ ['%']) s = startsWithChars q s := by
  induction q with
  | nil =>
    intro s
    rw [List.nil_append, likeMatch_pct]
    rfl
  | cons a q' ih =>
    intro s
    have ha := hq a (List.mem_cons_self a q')
    have ih' := ih fun c hc => hq c (List.mem_cons_of_mem a hc)
    cases s with
    | nil =>
      show (if a = '%' then likeMatch.starLoop (likeMatch (q' ++ ['%'])) [] else false) = false
      rw [if_neg ha.1]
    | cons c s' =>
      show (if a = '%' then likeMatch.starLoop (likeMatch (q' ++ ['%'])) (c :: s')
            else (a == '_' || a == c) && likeMatch (q' ++ ['%']) s') =
          ((a == c) && startsWithChars q' s')
      rw [if_neg ha.1, ih']
      have h2 : (a == '_') = false := by
        rw [beq_eq_false_iff_ne]
        exact ha.2
      rw [h2, Bool.false_or]

/-- `%pattern%` with a wildcard-free core matches exactly the texts that
contain the core as a contiguous substring. -/
theorem likeMatch_substring (q : List Char) (hq : ∀ c ∈ q, c ≠ '%' ∧ c ≠ '_') :
    ∀ s, likeMatch ('%' :: q ++ ['%']) s = hasSubstring q s := by
  intro s
  induction s with
  | nil =>
    show likeMatch (q ++ ['%']) [] = hasSubstring q []
    rw [likeMatch_lit q hq]
    rfl
  | cons c s' ih =>
    show (likeMatch (q ++ ['%']) (c :: s') || likeMatch ('%' :: q ++ ['%']) s') =
        (startsWithChars q (c :: s') || hasSubstring q s')
    rw [likeMatch_lit q hq, ih]

/-- For queries whose case-folded characters contain no LIKE wildcard, the
code's `UPPER(field) LIKE UPPER('%q%')` test coincides with the spec's
case-insensitive-substring test. -/
theorem sqlUpperLike_eq_spec (q field : String)
    (hw : ∀ c ∈ q.data, Char.toUpper c ≠ '%' ∧ Char.toUpper c ≠ '_') :
    sqlUpperLike q field = specCIMatch q field := by
  have hpct : Char.toUpper '%' = '%' := by decide
  have hmap : upperChars (likePattern q) = '%' :: upperChars q.data ++ ['%'] := by
    simp [upperChars, likePattern, hpct]
  unfold sqlUpperLike specCIMatch
  rw [hmap]
  exact likeMatch_substring (upperChars q.data)
    (fun c hc => by
      rcases List.mem_map.mp hc with ⟨c0, hc0, rfl⟩
      exact hw c0 hc0)
    (upperChars field.data)

/-- Membership in the descending insertion. -/
theorem mem_insertDesc (c a : CaseRow) (l : List CaseRow) :
    a ∈ insertDesc c l ↔ a = c ∨ a ∈ l := by
  induction l with
  | nil => simp [insertDesc]
  | cons d ds ih =>
    simp only [insertDesc]
    by_cases hd : d.created_at ≤ c.created_at
    · rw [if_pos hd]
      exact List.mem_cons
    · rw [if_neg hd, List.mem_cons, ih, List.mem_cons]
      tauto

/-- The descending insertion preserves descending order. -/
theorem pairwise_insertDesc (c : CaseRow) (l : List CaseRow)
    (h : l.Pairwise fun a b => b.created_at ≤ a.created_at) :
    (insertDesc c l).Pairwise fun a b => b.created_at ≤ a.created_at := by
  induction l with
  | nil => simp [insertDesc]
  | cons d ds ih =>
    simp only [insertDesc]
    rw [List.pairwise_cons] at h
    by_cases hd : d.created_at ≤ c.created_at
    · rw [if_pos hd, List.pairwise_cons]
      refine ⟨?_, List.pairwise_cons.mpr h⟩
      intro x hx
      rcases List.mem_cons.mp hx with rfl | hx'
      · exact hd
      · exact le_trans (h.1 x hx') hd
    · rw [if_neg hd, List.pairwise_cons]
      refine ⟨?_, ih h.2⟩
      intro x hx
      rcases (mem_insertDesc c x ds).mp hx with rfl | hx'
      · exact Nat.le_of_lt (Nat.lt_of_not_le hd)
      · exact h.1 x hx'

/-- Membership is invariant under the descending sort. -/
theorem sortByCreatedDesc_mem (a : CaseRow) (l : List CaseRow) :
    a ∈ sortByCreatedDesc l ↔ a ∈ l := by
  induction l with
  | nil => exact Iff.rfl
  | cons x xs ih =>
    show a ∈ insertDesc x (sortByCreatedDesc xs) ↔ a ∈ x :: xs
    rw [mem_insertDesc, ih, List.mem_cons]

/-- The descending sort produces a descending list. -/
theorem sortByCreatedDesc_sorted (l : List CaseRow) :
    (sortByCreatedDesc l).Pairwise fun a b => b.created_at ≤ a.created_at := by
  induction l with
  | nil => exact List.Pairwise.nil
  | cons x xs ih => exact pairwise_insertDesc x _ ih

/-- C9 as stated is false for queries containing LIKE wildcards: the query
`"%"` returns the sole stored case although `%` is not a case-insensitive
substring of its title, client name, lawyer name or case type. -/
theorem search_cases_counterexample :
    search_cases sSample "%" = [cSample]
    ∧ specCIMatch "%" cSample.case_title = false
    ∧ specCIMatch "%" cSample.client_name = false
    ∧ specCIMatch "%" cSample.lawyer_name = false
    ∧ specCIMatch "%" cSample.case_type = false := by
  decide

/-- C9 amended: for every query whose case-folded characters contain no
LIKE wildcard (`%` or `_`), search returns exactly the cases for which the
query is a case-insensitive substring of the title, client name, lawyer
name or case type (logical OR; a description-only match does not qualify),
ordered by creation timestamp descending; wildcard queries instead follow
SQL LIKE semantics. -/
theorem search_cases_spec (s : DBState) (q : String)
    (hw : ∀ c ∈ q.data, Char.toUpper c ≠ '%' ∧ Char.toUpper c ≠ '_') :
    (∀ c : CaseRow, c ∈ search_cases s q ↔
        c ∈ s.cases ∧
          (specCIMatch q c.case_title = true ∨ specCIMatch q c.client_name = true ∨
           specCIMatch q c.lawyer_name = true ∨ specCIMatch q c.case_type = true))
    ∧ (search_cases s q).Pairwise (fun a b => b.created_at ≤ a.created_at) := by
  constructor
  · intro c
    rw [search_cases, sortByCreatedDesc_mem, List.mem_filter]
    have hm : matchesQuery q c = true ↔
        (specCIMatch q c.case_title = true ∨ specCIMatch q c.client_name = true ∨
         specCIMatch q c.lawyer_name = true ∨ specCIMatch q c.case_type = true) := by
      unfold matchesQuery
      rw [sqlUpperLike_eq_spec _ _ hw, sqlUpperLike_eq_spec _ _ hw,
          sqlUpperLike_eq_spec _ _ hw, sqlUpperLike_eq_spec _ _ hw]
      simp [Bool.or_eq_true, or_assoc]
    exact and_congr Iff.rfl hm
  · exact sortByCreatedDesc_sorted _

/-- A case matched through its client name. -/
def cJohn : CaseRow :=
  ⟨1, "Contract dispute", "John Smith", "j@x", "a1", "Lee Park", "l@x",
   "Civil", "payment contract", "w1", "w2", none, "Active", 30⟩

/-- A case matched through its lawyer name, in different letter case. -/
def cJane : CaseRow :=
  ⟨2, "Theft appeal", "Bob Low", "b@x", "a2", "Jane SMITH", "js@x",
   "Criminal", "appeal", "w3", "w4", none, "Pending", 20⟩

/-- A case mentioning the query only in its description. -/
def cDescOnly : CaseRow :=
  ⟨3, "Probate matter", "Ann Roe", "a@x", "a3", "Max Boon", "m@x",
   "Probate", "estate of Mr Smith", "w5", "w6", none, "Active", 10⟩

/-- Store for the search witness. -/
def sSearch : DBState := ⟨[cJohn, cJane, cDescOnly], [], [], 4, 1⟩

/-- Witness for C9 (amended): the spec's `"Smith"` example — the client
match and the case-folded lawyer match are returned, the description-only
case is not. -/
theorem search_cases_spec_witness :
    cJohn ∈ search_cases sSearch "Smith"
    ∧ cJane ∈ search_cases sSearch "Smith"
    ∧ cDescOnly ∉ search_cases sSearch "Smith" := by
  have h := search_cases_spec sSearch "Smith" (by decide)
  refine ⟨(h.1 cJohn).mpr ⟨by decide, by decide⟩,
          (h.1 cJane).mpr ⟨by decide, by decide⟩,
          fun hc => ?_⟩
  have h2 := (h.1 cDescOnly).mp hc
  exact absurd h2 (by decide)
